import Mathlib

/-!
Verification development for the "Forensic Dental AI System" demo application
(`app.py`).  The claims under study concern the deterministic
fingerprint-to-findings generator: `generate_image_fingerprint`,
`analyze_image_quality`, `calculate_entropy`, `detect_teeth_based_on_image`
and `calculate_forensic_metrics_based_on_image`.

The embedding below models:
  * images as rectangular grids of 8-bit intensities (`Fin 256`), matching
    `np.array` of a grayscale PIL image;
  * image statistics (mean, standard deviation, histogram entropy) as exact
    real numbers, with Python's `round`/`"%.2f"` modelled as round-half-to-even
    on the exact value;
  * MD5 computed bit-for-bit over the byte string that the Python f-string
    builds (all characters involved are ASCII);
  * the global NumPy random generator as an explicit state type `σ` together
    with a `seed`/`choice`/`uniform` interface; `detect_teeth_based_on_image`
    threads that state exactly as the Python code drives the global generator.
-/

namespace ForensicDental

/-! ### MD5 over byte lists (bytes are `ℕ` values `< 256`, words are `ℕ` mod `2^32`) -/

/-- Rotate a 32-bit word (a natural number `< 2^32`) left by `n` bits. -/
def rotl32 (x n : ℕ) : ℕ := ((x <<< n) % 4294967296) ||| (x >>> (32 - n))

/-- Bitwise complement within 32 bits. -/
def compl32 (x : ℕ) : ℕ := x ^^^ 4294967295

/-- MD5 round function F. -/
def md5F (b c d : ℕ) : ℕ := (b &&& c) ||| (compl32 b &&& d)

/-- MD5 round function G. -/
def md5G (b c d : ℕ) : ℕ := (d &&& b) ||| (compl32 d &&& c)

/-- MD5 round function H. -/
def md5H (b c d : ℕ) : ℕ := b ^^^ c ^^^ d

/-- MD5 round function I. -/
def md5I (b c d : ℕ) : ℕ := c ^^^ (b ||| compl32 d)

/-- The 64 MD5 sine-derived constants. -/
def md5K : List ℕ :=
  [0xd76aa478, 0xe8c7b756, 0x242070db, 0xc1bdceee,
   0xf57c0faf, 0x4787c62a, 0xa8304613, 0xfd469501,
   0x698098d8, 0x8b44f7af, 0xffff5bb1, 0x895cd7be,
   0x6b901122, 0xfd987193, 0xa679438e, 0x49b40821,
   0xf61e2562, 0xc040b340, 0x265e5a51, 0xe9b6c7aa,
   0xd62f105d, 0x02441453, 0xd8a1e681, 0xe7d3fbc8,
   0x21e1cde6, 0xc33707d6, 0xf4d50d87, 0x455a14ed,
   0xa9e3e905, 0xfcefa3f8, 0x676f02d9, 0x8d2a4c8a,
   0xfffa3942, 0x8771f681, 0x6d9d6122, 0xfde5380c,
   0xa4beea44, 0x4bdecfa9, 0xf6bb4b60, 0xbebfbc70,
   0x289b7ec6, 0xeaa127fa, 0xd4ef3085, 0x04881d05,
   0xd9d4d039, 0xe6db99e5, 0x1fa27cf8, 0xc4ac5665,
   0xf4292244, 0x432aff97, 0xab9423a7, 0xfc93a039,
   0x655b59c3, 0x8f0ccc92, 0xffeff47d, 0x85845dd1,
   0x6fa87e4f, 0xfe2ce6e0, 0xa3014314, 0x4e0811a1,
   0xf7537e82, 0xbd3af235, 0x2ad7d2bb, 0xeb86d391]

/-- The 64 MD5 per-round left-rotation amounts. -/
def md5S : List ℕ :=
  [7, 12, 17, 22, 7, 12, 17, 22, 7, 12, 17, 22, 7, 12, 17, 22,
   5, 9, 14, 20, 5, 9, 14, 20, 5, 9, 14, 20, 5, 9, 14, 20,
   4, 11, 16, 23, 4, 11, 16, 23, 4, 11, 16, 23, 4, 11, 16, 23,
   6, 10, 15, 21, 6, 10, 15, 21, 6, 10, 15, 21, 6, 10, 15, 21]

/-- One MD5 round: `M` is the 16-word message schedule of the current block,
`st` the running `(a,b,c,d)` state, `i` the round index. -/
def md5Step (M : List ℕ) (st : ℕ × ℕ × ℕ × ℕ) (i : ℕ) : ℕ × ℕ × ℕ × ℕ :=
  let a := st.1
  let b := st.2.1
  let c := st.2.2.1
  let d := st.2.2.2
  let f := if i < 16 then md5F b c d else if i < 32 then md5G b c d
           else if i < 48 then md5H b c d else md5I b c d
  let g := if i < 16 then i else if i < 32 then (5 * i + 1) % 16
           else if i < 48 then (3 * i + 5) % 16 else (7 * i) % 16
  let f2 := (f + a + md5K.getD i 0 + M.getD g 0) % 4294967296
  (d, (b + rotl32 f2 (md5S.getD i 0)) % 4294967296, b, c)

/-- Compress one 64-byte block (little-endian word decoding) into the state. -/
def md5Compress (st : ℕ × ℕ × ℕ × ℕ) (block : List ℕ) : ℕ × ℕ × ℕ × ℕ :=
  let M := (List.range 16).map fun j =>
    block.getD (4 * j) 0 + 256 * block.getD (4 * j + 1) 0 +
    65536 * block.getD (4 * j + 2) 0 + 16777216 * block.getD (4 * j + 3) 0
  let r := (List.range 64).foldl (md5Step M) st
  ((st.1 + r.1) % 4294967296, (st.2.1 + r.2.1) % 4294967296,
   (st.2.2.1 + r.2.2.1) % 4294967296, (st.2.2.2 + r.2.2.2) % 4294967296)

/-- Fold the compression function over consecutive 64-byte blocks; `fuel`
bounds the number of blocks (any `fuel ≥` the number of blocks is enough). -/
def md5BlocksAux : ℕ → ℕ × ℕ × ℕ × ℕ → List ℕ → ℕ × ℕ × ℕ × ℕ
  | 0, st, _ => st
  | _, st, [] => st
  | fuel + 1, st, m :: rest =>
      md5BlocksAux fuel (md5Compress st (m :: rest.take 63)) (rest.drop 63)

/-- Fold the compression function over consecutive 64-byte blocks. -/
def md5Blocks (st : ℕ × ℕ × ℕ × ℕ) (msg : List ℕ) : ℕ × ℕ × ℕ × ℕ :=
  md5BlocksAux msg.length st msg

/-- The `k` least-significant bytes of `n`, little-endian. -/
def leBytes (k n : ℕ) : List ℕ := (List.range k).map fun i => (n >>> (8 * i)) % 256

/-- MD5 padding: append `0x80`, zero-pad to 56 mod 64, then the 64-bit
little-endian bit length. -/
def md5Pad (msg : List ℕ) : List ℕ :=
  msg ++ [128] ++ List.replicate ((119 - msg.length % 64) % 64) 0 ++
    leBytes 8 (8 * msg.length)

/-- The 16-byte MD5 digest of a byte list. -/
def md5Digest (msg : List ℕ) : List ℕ :=
  let st := md5Blocks (1732584193, 4023233417, 2562383102, 271733878) (md5Pad msg)
  leBytes 4 st.1 ++ leBytes 4 st.2.1 ++ leBytes 4 st.2.2.1 ++ leBytes 4 st.2.2.2

/-- A lowercase hexadecimal digit character. -/
def hexChar (n : ℕ) : Char := if n < 10 then Char.ofNat (48 + n) else Char.ofNat (87 + n)

/-- Two-character lowercase hex rendering of one byte. -/
def byteHex (b : ℕ) : List Char := [hexChar (b / 16), hexChar (b % 16)]

/-- Python `hashlib.md5(...).hexdigest()`: the 32-character lowercase hex digest. -/
def md5Hex (msg : List ℕ) : String := String.mk (((md5Digest msg).map byteHex).flatten)

/-- UTF-8 bytes of an ASCII string (every string we hash is pure ASCII). -/
def strBytes (s : String) : List ℕ := s.data.map Char.toNat

/-- Value of one lowercase hexadecimal digit character. -/
def hexDigitVal (c : Char) : ℕ :=
  if 97 ≤ c.toNat then c.toNat - 87 else c.toNat - 48

/-- Python `int(s, 16)` on a lowercase hex string. -/
def hexToNat (s : String) : ℕ := s.data.foldl (fun a c => 16 * a + hexDigitVal c) 0

/-- Python `f"{x:.2f}"` of a nonnegative value given as `round(100*x)`:
integer part, a dot, and a zero-padded two-digit fractional part. -/
def fmt2 (n : ℕ) : String :=
  toString (n / 100) ++ "." ++ (if n % 100 < 10 then "0" else "") ++ toString (n % 100)

/-- Python `f"{img_array.shape}"` for a 2-D array: the tuple repr `"(r, c)"`. -/
def shapeStr (r c : ℕ) : String := "(" ++ toString r ++ ", " ++ toString c ++ ")"

/-- Python string slicing `s[:n]`: the first `n` characters. -/
def strTake (s : String) (n : ℕ) : String := String.mk (s.data.take n)

/-- Computable core of `generate_image_fingerprint`: the first 8 hex characters
of the MD5 of `f"{shape}{mean:.2f}{std:.2f}"`, where `m100`/`s100` are the
mean and standard deviation rounded to 2 decimals, times 100. -/
def fingerprintOf (r c m100 s100 : ℕ) : String :=
  strTake (md5Hex (strBytes (shapeStr r c ++ fmt2 m100 ++ fmt2 s100))) 8

/-! ### Rounding

Python's `round(x, d)` and `f"{x:.2f}"` round half to even.  We model them on
exact real values. -/

/-- Round half to even, as Python's `round` does on the exact value. -/
noncomputable def roundHE (x : ℝ) : ℤ :=
  if Int.fract x < 1 / 2 then ⌊x⌋
  else if 1 / 2 < Int.fract x then ⌊x⌋ + 1
  else if Even ⌊x⌋ then ⌊x⌋ else ⌊x⌋ + 1

/-- Python `round(x, d)`: round half to even at the `d`-th decimal place. -/
noncomputable def roundTo (d : ℕ) (x : ℝ) : ℝ := (roundHE (x * 10 ^ d) : ℝ) / 10 ^ d

/-! ### Image samples and their statistics -/

/-- An image sample: a rectangular single-channel grid of 8-bit intensities,
stored row-major, as produced by `np.array` on a grayscale PIL image. -/
structure Image where
  rows : ℕ
  cols : ℕ
  data : List (Fin 256)
  hsize : data.length = rows * cols

/-- NumPy `img_array.mean()`: arithmetic mean of all intensities. -/
noncomputable def mean (img : Image) : ℝ :=
  (img.data.map fun p => (p.val : ℝ)).sum / img.data.length

/-- NumPy `img_array.std()`: population standard deviation
`sqrt(mean((x - mean)²))`. -/
noncomputable def std (img : Image) : ℝ :=
  Real.sqrt ((img.data.map fun p => ((p.val : ℝ) - mean img) ^ 2).sum / img.data.length)

/-- NumPy `np.histogram(img_array, bins=256, range=(0, 255))[0]` for 8-bit data:
with 256 bins of width `255/256` over `[0, 255]`, each integer intensity `v`
falls into bin `v`, so the histogram is the per-value count list. -/
def hist (img : Image) : List ℕ :=
  (List.range 256).map fun v => (img.data.filter fun p => p.val == v).length

/-- Body of `calculate_entropy`: drop the zero bins, normalize by the sum of
the remaining counts, and take the base-2 Shannon entropy. -/
noncomputable def entropyOfHist (h : List ℕ) : ℝ :=
  let pos := h.filter fun c => 0 < c;
  -(pos.map fun c : ℕ =>
      (c : ℝ) / (pos.sum : ℝ) * Real.logb 2 ((c : ℝ) / (pos.sum : ℝ))).sum

/-- Source function `calculate_entropy(img_array)` from `app.py`. -/
noncomputable def calculate_entropy (img : Image) : ℝ := entropyOfHist (hist img)

/-- Source function `generate_image_fingerprint(image)`: first 8 hex characters of the MD5 of
`f"{img_array.shape}{img_array.mean():.2f}{img_array.std():.2f}"`. -/
noncomputable def generate_image_fingerprint (img : Image) : String :=
  fingerprintOf img.rows img.cols (roundHE (100 * mean img)).toNat
    (roundHE (100 * std img)).toNat

/-- Return value of `analyze_image_quality`. -/
structure Quality where
  clarity : ℝ
  sharpness : ℝ
  brightness_balance : ℝ
  contrast_level : ℝ
  mean_intensity : ℝ

/-- Source function `analyze_image_quality(image)` from `app.py`. -/
noncomputable def analyze_image_quality (img : Image) : Quality :=
  let mean_intensity := mean img
  let contrast := std img
  let ent := calculate_entropy img
  let clarity := min 100 (contrast / 128 * 100)
  let sharpness := min 100 (ent / 8 * 100)
  let brightness_balance := min 100 (|128 - mean_intensity| * 2)
  { clarity := roundTo 1 clarity,
    sharpness := roundTo 1 sharpness,
    brightness_balance := roundTo 1 brightness_balance,
    contrast_level := roundTo 1 contrast,
    mean_intensity := roundTo 1 mean_intensity }

/-! ### The finding generator `detect_teeth_based_on_image` -/

/-- The seven conditions, in the order of `conditions` in `app.py`. -/
def conditions : List String :=
  ["Healthy", "Filled", "Crowned", "Root Canal", "Impacted", "Missing", "Carious"]

/-- The default condition-probability table. -/
def defaultWeights : List ℚ := [0.6, 0.15, 0.08, 0.06, 0.05, 0.04, 0.02]

/-- The low-contrast condition-probability table. -/
def lowContrastWeights : List ℚ := [0.4, 0.2, 0.1, 0.1, 0.1, 0.08, 0.02]

/-- The table actually used, switched on `std_val < 30` as in `app.py`. -/
noncomputable def conditionWeights (std_val : ℝ) : List ℚ :=
  if std_val < 30 then lowContrastWeights else defaultWeights

/-- Static descriptor of one tooth position (`all_teeth` entries). -/
structure ToothStatic where
  number : String
  name : String
  type : String
deriving DecidableEq

/-- The 16-entry base teeth template of `detect_teeth_based_on_image`. -/
def all_teeth : List ToothStatic :=
  [⟨"18", "Third Molar", "Wisdom Tooth"⟩,
   ⟨"17", "Second Molar", "Molar"⟩,
   ⟨"16", "First Molar", "Molar"⟩,
   ⟨"15", "Second Premolar", "Premolar"⟩,
   ⟨"14", "First Premolar", "Premolar"⟩,
   ⟨"13", "Canine", "Canine"⟩,
   ⟨"12", "Lateral Incisor", "Incisor"⟩,
   ⟨"11", "Central Incisor", "Incisor"⟩,
   ⟨"21", "Central Incisor", "Incisor"⟩,
   ⟨"22", "Lateral Incisor", "Incisor"⟩,
   ⟨"23", "Canine", "Canine"⟩,
   ⟨"24", "First Premolar", "Premolar"⟩,
   ⟨"25", "Second Premolar", "Premolar"⟩,
   ⟨"26", "First Molar", "Molar"⟩,
   ⟨"27", "Second Molar", "Molar"⟩,
   ⟨"28", "Third Molar", "Wisdom Tooth"⟩]

/-- Python `int(s)` on a decimal-digit string such as a tooth number. -/
def parseNat (s : String) : ℕ := s.data.foldl (fun a c => 10 * a + (c.toNat - 48)) 0

/-- Interface to the global NumPy pseudo-random generator: `σ` is the
generator-state type, `seed` is `np.random.seed`, `choiceIdx` the index drawn
by `np.random.choice(conditions, p=ws)`, and `uniform` is
`np.random.uniform(lo, hi)`; drawing advances the state. -/
structure RNG (σ : Type) where
  seed : ℕ → σ
  choiceIdx : σ → List ℚ → ℕ × σ
  uniform : σ → ℝ → ℝ → ℝ × σ

/-- What the NumPy generator guarantees about its draws: `choice` returns an
index of the weight list, and `uniform lo hi` lands in `[lo, hi]`. -/
def RNG.Conforming {σ : Type} (rng : RNG σ) : Prop :=
  (∀ s ws, ws ≠ [] → (rng.choiceIdx s ws).1 < ws.length) ∧
  ∀ s lo hi, lo ≤ hi → lo ≤ (rng.uniform s lo hi).1 ∧ (rng.uniform s lo hi).1 ≤ hi

/-- One emitted tooth record. -/
structure ToothRecord where
  number : String
  name : String
  type : String
  condition : String
  confidence : ℝ

/-- The confidence adjustment of `detect_teeth_based_on_image`:
`*= 0.8` when `std_val < 25`, `*= 1.1` when `std_val > 80`. -/
noncomputable def adjustConfidence (std_val conf : ℝ) : ℝ :=
  if std_val < 25 then conf * 0.8 else if std_val > 80 then conf * 1.1 else conf

/-- The `for tooth in ...` loop body of `detect_teeth_based_on_image`,
threading the global generator state exactly as the Python code does. -/
noncomputable def detectLoop {σ : Type} (rng : RNG σ) (seed : ℕ) (ws : List ℚ)
    (std_val : ℝ) : List ToothStatic → σ → List ToothRecord × σ
  | [], s => ([], s)
  | tooth :: rest, s =>
      let tooth_seed := seed + parseNat tooth.number
      let s1 := rng.seed tooth_seed
      let cd := rng.choiceIdx s1 ws
      let u := rng.uniform cd.2 0.75 0.98
      let r : ToothRecord :=
        { number := tooth.number, name := tooth.name, type := tooth.type,
          condition := conditions.getD cd.1 "",
          confidence := roundTo 3 (adjustConfidence std_val u.1) }
      let t := detectLoop rng seed ws std_val rest u.2
      (r :: t.1, t.2)

/-- The record `detect_teeth_based_on_image` emits for one position: a function
of the base seed, the table, the standard deviation and the position alone
(the loop's incoming generator state is overwritten by the per-tooth reseed). -/
noncomputable def recOf {σ : Type} (rng : RNG σ) (seed : ℕ) (ws : List ℚ)
    (std_val : ℝ) (tooth : ToothStatic) : ToothRecord :=
  let tooth_seed := seed + parseNat tooth.number
  let s1 := rng.seed tooth_seed
  let cd := rng.choiceIdx s1 ws
  let u := rng.uniform cd.2 0.75 0.98
  { number := tooth.number, name := tooth.name, type := tooth.type,
    condition := conditions.getD cd.1 "",
    confidence := roundTo 3 (adjustConfidence std_val u.1) }

/-- Function `detect_teeth_based_on_image` generalized over the position list it
iterates (the source fixes the list to `all_teeth[:8]`); `s₀` is the ambient
global generator state at call time, overwritten by `np.random.seed(seed)`. -/
noncomputable def detectTeethOn {σ : Type} (rng : RNG σ) (s₀ : σ) (img : Image)
    (positions : List ToothStatic) : List ToothRecord :=
  let fingerprint := generate_image_fingerprint img
  let seed := hexToNat fingerprint % 10000
  let s₁ := rng.seed seed
  let std_val := std img
  (detectLoop rng seed (conditionWeights std_val) std_val positions s₁).1

/-- Source function `detect_teeth_based_on_image(image)` from `app.py`. -/
noncomputable def detect_teeth_based_on_image {σ : Type} (rng : RNG σ) (s₀ : σ)
    (img : Image) : List ToothRecord :=
  detectTeethOn rng s₀ img (all_teeth.take 8)

/-- The base seed `int(fingerprint, 16) % 10000`. -/
noncomputable def baseSeed (img : Image) : ℕ :=
  hexToNat (generate_image_fingerprint img) % 10000

/-! ### Aggregate forensic metrics -/

/-- Count `len([t for t in teeth_data if t["condition"] == "Healthy"])`. -/
def healthyCount (l : List ToothRecord) : ℕ :=
  (l.filter fun t => t.condition == "Healthy").length

/-- Count of conditions in `["Filled", "Crowned", "Root Canal"]`. -/
def treatedCount (l : List ToothRecord) : ℕ :=
  (l.filter fun t => ["Filled", "Crowned", "Root Canal"].contains t.condition).length

/-- Count of conditions in `["Impacted", "Missing", "Carious"]`. -/
def issueCount (l : List ToothRecord) : ℕ :=
  (l.filter fun t => ["Impacted", "Missing", "Carious"].contains t.condition).length

/-- Return value of `calculate_forensic_metrics_based_on_image`. -/
structure Metrics where
  image_clarity : ℝ
  sharpness_quality : ℝ
  clarity_improvement : ℝ
  sharpness_improvement : ℝ
  forensic_utility : ℝ
  identification_confidence : ℝ
  distinctive_features : ℕ
  dental_health_score : ℝ

/-- Source function `calculate_forensic_metrics_based_on_image(original_img, enhanced_img,
teeth_data)` from `app.py`. -/
noncomputable def calculate_forensic_metrics_based_on_image
    (original_img enhanced_img : Image) (teeth_data : List ToothRecord) : Metrics :=
  let orig_quality := analyze_image_quality original_img
  let enhanced_quality := analyze_image_quality enhanced_img
  let clarity_improvement := enhanced_quality.clarity - orig_quality.clarity
  let sharpness_improvement := enhanced_quality.sharpness - orig_quality.sharpness
  let healthy_count := healthyCount teeth_data
  let treated_count := treatedCount teeth_data
  let issue_count := issueCount teeth_data
  let base_utility := enhanced_quality.clarity * 0.4 + enhanced_quality.sharpness * 0.3
  let dental_utility := (healthy_count : ℝ) / teeth_data.length * 30 +
    (treated_count : ℝ) / teeth_data.length * 40
  let forensic_utility := min 100 (base_utility + dental_utility)
  let distinctive_features := treated_count + issue_count
  let id_confidence := min 100 (50 + (distinctive_features : ℝ) * 8 + forensic_utility * 0.4)
  { image_clarity := enhanced_quality.clarity,
    sharpness_quality := enhanced_quality.sharpness,
    clarity_improvement := roundTo 1 clarity_improvement,
    sharpness_improvement := roundTo 1 sharpness_improvement,
    forensic_utility := roundTo 1 forensic_utility,
    identification_confidence := roundTo 1 id_confidence,
    distinctive_features := distinctive_features,
    dental_health_score := roundTo 1 ((healthy_count : ℝ) / teeth_data.length * 100) }

/-- The forensic-utility formula exactly as the specification words it
(`min(100, 0.4×clarity + 0.3×sharpness + 30×(healthy/total) +
40×(treated/total))`), for comparison against the code's return value. -/
noncomputable def specForensicUtility (enhanced_img : Image)
    (teeth_data : List ToothRecord) : ℝ :=
  min 100 (0.4 * (analyze_image_quality enhanced_img).clarity +
    0.3 * (analyze_image_quality enhanced_img).sharpness +
    30 * ((healthyCount teeth_data : ℝ) / teeth_data.length) +
    40 * ((treatedCount teeth_data : ℝ) / teeth_data.length))

/-- The identification-confidence formula exactly as the specification words it
(`min(100, 50 + 8×distinctive + 0.4×forensic_utility)`). -/
noncomputable def specIdentificationConfidence (enhanced_img : Image)
    (teeth_data : List ToothRecord) : ℝ :=
  min 100 (50 + 8 * ((treatedCount teeth_data + issueCount teeth_data : ℕ) : ℝ) +
    0.4 * specForensicUtility enhanced_img teeth_data)

/-! ### Concrete samples used by witnesses and counterexamples -/

/-- A 1×1 image of constant intensity 120 (mean 120, stddev 0, entropy 0). -/
def gray1 : Image := ⟨1, 1, [120], rfl⟩

/-- A 1×2 image with intensities 0 and 200 (mean 100, stddev 100). -/
def grayA : Image := ⟨1, 2, [0, 200], rfl⟩

/-- The same multiset of intensities as `grayA` in the other order. -/
def grayB : Image := ⟨1, 2, [200, 0], rfl⟩

/-- A 1×2 image with intensities 0 and 60 (mean 30, stddev exactly 30). -/
def img30 : Image := ⟨1, 2, [0, 60], rfl⟩

/-- The flat-gray 400×600 image of the specification's worked example:
every intensity 120, so mean 120.00 and stddev 0.00. -/
def flatGray : Image := ⟨400, 600, List.replicate 240000 120, by rw [List.length_replicate]⟩

/-- A concrete conforming generator: `choice` always picks index 0 and
`uniform lo hi` returns the 99th percentile `(lo + 99·hi)/100`. -/
noncomputable def constRNG : RNG Unit where
  seed _ := ()
  choiceIdx s _ := (0, s)
  uniform s lo hi := ((lo + 99 * hi) / 100, s)

/-- A tooth record with given position and condition (for feeding the metrics
function directly). -/
noncomputable def mkRec (num cond : String) : ToothRecord :=
  ⟨num, "", "", cond, 0.9⟩

/-- Eight records, one Healthy and seven Carious: on these the returned
forensic-utility value exhibits the final rounding step. -/
noncomputable def cexTeeth : List ToothRecord :=
  [mkRec "18" "Healthy", mkRec "17" "Carious", mkRec "16" "Carious",
   mkRec "15" "Carious", mkRec "14" "Carious", mkRec "13" "Carious",
   mkRec "12" "Carious", mkRec "11" "Carious"]

/-! ### Rounding lemmas -/

/-- Round-half-even of an integer is itself. -/
theorem roundHE_intCast (n : ℤ) : roundHE (n : ℝ) = n := by
  unfold roundHE
  rw [Int.fract_intCast, Int.floor_intCast, if_pos (by norm_num)]

/-- The rounded value is at least the floor. -/
theorem floor_le_roundHE (x : ℝ) : ⌊x⌋ ≤ roundHE x := by
  unfold roundHE
  split_ifs <;> omega

/-- The rounded value is at most the floor plus one. -/
theorem roundHE_le_floor_add_one (x : ℝ) : roundHE x ≤ ⌊x⌋ + 1 := by
  unfold roundHE
  split_ifs <;> omega

/-- Round-half-even is monotone. -/
theorem roundHE_mono {x y : ℝ} (h : x ≤ y) : roundHE x ≤ roundHE y := by
  rcases lt_or_eq_of_le (Int.floor_le_floor h) with hf | hf
  · calc roundHE x ≤ ⌊x⌋ + 1 := roundHE_le_floor_add_one x
      _ ≤ ⌊y⌋ := by omega
      _ ≤ roundHE y := floor_le_roundHE y
  · have hfr : Int.fract x ≤ Int.fract y := by
      simp only [Int.fract]
      rw [hf]
      linarith
    unfold roundHE
    rw [hf]
    split_ifs <;> first | omega | linarith

/-- Monotonicity of `roundTo`. -/
theorem roundTo_mono (d : ℕ) {x y : ℝ} (h : x ≤ y) : roundTo d x ≤ roundTo d y := by
  unfold roundTo
  have h1 : roundHE (x * 10 ^ d) ≤ roundHE (y * 10 ^ d) :=
    roundHE_mono (mul_le_mul_of_nonneg_right h (by positivity))
  have h2 : ((roundHE (x * 10 ^ d) : ℤ) : ℝ) ≤ ((roundHE (y * 10 ^ d) : ℤ) : ℝ) := by
    exact_mod_cast h1
  gcongr

/-- A value that is exactly representable at `d` decimals rounds to itself. -/
theorem roundTo_eq_self {d : ℕ} {x : ℝ} (k : ℤ) (hk : x * 10 ^ d = (k : ℝ)) :
    roundTo d x = x := by
  unfold roundTo
  rw [hk, roundHE_intCast, ← hk]
  exact mul_div_cancel_right₀ x (by positivity)

/-- Evaluation of `roundHE` below the midpoint. -/
theorem roundHE_eq_low {x : ℝ} {k : ℤ} (h1 : (k : ℝ) ≤ x) (h2 : x < (k : ℝ) + 1 / 2) :
    roundHE x = k := by
  have hf : ⌊x⌋ = k := Int.floor_eq_iff.mpr ⟨h1, by linarith⟩
  have hfr : Int.fract x < 1 / 2 := by
    simp only [Int.fract, hf]
    linarith
  unfold roundHE
  rw [if_pos hfr, hf]

/-- Evaluation of `roundHE` above the midpoint. -/
theorem roundHE_eq_high {x : ℝ} {k : ℤ} (h1 : (k : ℝ) + 1 / 2 < x) (h2 : x < (k : ℝ) + 1) :
    roundHE x = k + 1 := by
  have hf : ⌊x⌋ = k := Int.floor_eq_iff.mpr ⟨by linarith, by linarith⟩
  have hfr : 1 / 2 < Int.fract x := by
    simp only [Int.fract, hf]
    linarith
  unfold roundHE
  rw [if_neg (by linarith), if_pos hfr, hf]

/-- Evaluation of `roundHE` at a midpoint with odd integer part. -/
theorem roundHE_tie_odd {x : ℝ} {k : ℤ} (h : x = (k : ℝ) + 1 / 2) (hk : ¬ Even k) :
    roundHE x = k + 1 := by
  have hf : ⌊x⌋ = k := Int.floor_eq_iff.mpr ⟨by linarith, by linarith⟩
  have hfr : Int.fract x = 1 / 2 := by
    unfold Int.fract
    rw [hf, h]
    ring
  unfold roundHE
  rw [hfr, hf, if_neg (by norm_num), if_neg (by norm_num), if_neg hk]

/-- Round a real that is an integer times `10^-d` to itself (integer input). -/
theorem roundTo_intVal (d : ℕ) (n : ℤ) : roundTo d (n : ℝ) = n :=
  roundTo_eq_self (n * 10 ^ d) (by push_cast; ring)

/-! ### The loop is a pure map over the position list -/

/-- The records the loop emits form a pure map over the position list: the
incoming generator state influences no record, because every iteration starts
by reseeding. -/
theorem detectLoop_fst {σ : Type} (rng : RNG σ) (seed : ℕ) (ws : List ℚ)
    (std_val : ℝ) : ∀ (l : List ToothStatic) (s : σ),
    (detectLoop rng seed ws std_val l s).1 = l.map (recOf rng seed ws std_val) := by
  intro l
  induction l with
  | nil => intro s; rfl
  | cons t rest ih =>
      intro s
      simp only [detectLoop, List.map_cons]
      rw [ih]
      rfl

/-- Function `detectTeethOn` is a pure map of `recOf` over its position list. -/
theorem detectTeethOn_eq_map {σ : Type} (rng : RNG σ) (s₀ : σ) (img : Image)
    (positions : List ToothStatic) :
    detectTeethOn rng s₀ img positions =
      positions.map (recOf rng (baseSeed img) (conditionWeights (std img)) (std img)) :=
  detectLoop_fst rng (baseSeed img) (conditionWeights (std img)) (std img) positions _

/-- Function `detect_teeth_based_on_image` is that map over the first 8 template
positions. -/
theorem detect_eq_map {σ : Type} (rng : RNG σ) (s₀ : σ) (img : Image) :
    detect_teeth_based_on_image rng s₀ img =
      (all_teeth.take 8).map
        (recOf rng (baseSeed img) (conditionWeights (std img)) (std img)) :=
  detectTeethOn_eq_map rng s₀ img (all_teeth.take 8)

/-- The generator always yields 8 records. -/
theorem detect_length {σ : Type} (rng : RNG σ) (s₀ : σ) (img : Image) :
    (detect_teeth_based_on_image rng s₀ img).length = 8 := by
  rw [detect_eq_map, List.length_map]
  rfl

/-- The position codes of the emitted records, in order. -/
theorem detect_numbers {σ : Type} (rng : RNG σ) (s₀ : σ) (img : Image) :
    (detect_teeth_based_on_image rng s₀ img).map ToothRecord.number =
      ["18", "17", "16", "15", "14", "13", "12", "11"] := by
  rw [detect_eq_map, List.map_map]
  rfl

/-- Every emitted record is `recOf` of some template position. -/
theorem mem_detect {σ : Type} {rng : RNG σ} {s₀ : σ} {img : Image} {t : ToothRecord}
    (ht : t ∈ detect_teeth_based_on_image rng s₀ img) :
    ∃ tooth, t = recOf rng (baseSeed img) (conditionWeights (std img)) (std img) tooth := by
  rw [detect_eq_map] at ht
  obtain ⟨tooth, _, rfl⟩ := List.mem_map.mp ht
  exact ⟨tooth, rfl⟩

/-! ### Statistics of the concrete samples -/

theorem mean_gray1 : mean gray1 = 120 := by
  simp [mean, gray1, show ((120 : Fin 256)).val = 120 from rfl]

theorem std_gray1 : std gray1 = 0 := by
  unfold std
  rw [mean_gray1]
  simp [gray1, show ((120 : Fin 256)).val = 120 from rfl]

theorem mean_grayA : mean grayA = 100 := by
  simp [mean, grayA, show ((0 : Fin 256)).val = 0 from rfl,
    show ((200 : Fin 256)).val = 200 from rfl]
  norm_num

theorem std_grayA : std grayA = 100 := by
  unfold std
  rw [mean_grayA]
  simp only [grayA, List.map_cons, List.map_nil, List.sum_cons, List.sum_nil,
    List.length_cons, List.length_nil, show ((0 : Fin 256)).val = 0 from rfl,
    show ((200 : Fin 256)).val = 200 from rfl]
  rw [show (((0:ℕ):ℝ) - 100) ^ 2 + ((((200:ℕ):ℝ) - 100) ^ 2 + 0) = 20000 by norm_num]
  rw [show ((20000 : ℝ) / ((0:ℕ) + 1 + 1 : ℕ)) = 100 ^ 2 by norm_num]
  exact Real.sqrt_sq (by norm_num)

theorem mean_grayB : mean grayB = 100 := by
  simp [mean, grayB, show ((0 : Fin 256)).val = 0 from rfl,
    show ((200 : Fin 256)).val = 200 from rfl]
  norm_num

theorem std_grayB : std grayB = 100 := by
  unfold std
  rw [mean_grayB]
  simp only [grayB, List.map_cons, List.map_nil, List.sum_cons, List.sum_nil,
    List.length_cons, List.length_nil, show ((0 : Fin 256)).val = 0 from rfl,
    show ((200 : Fin 256)).val = 200 from rfl]
  rw [show ((((200:ℕ):ℝ) - 100) ^ 2 + ((((0:ℕ):ℝ) - 100) ^ 2 + 0)) = 20000 by norm_num]
  rw [show ((20000 : ℝ) / ((0:ℕ) + 1 + 1 : ℕ)) = 100 ^ 2 by norm_num]
  exact Real.sqrt_sq (by norm_num)

theorem mean_img30 : mean img30 = 30 := by
  simp [mean, img30, show ((0 : Fin 256)).val = 0 from rfl,
    show ((60 : Fin 256)).val = 60 from rfl]
  norm_num

theorem std_img30 : std img30 = 30 := by
  unfold std
  rw [mean_img30]
  simp only [img30, List.map_cons, List.map_nil, List.sum_cons, List.sum_nil,
    List.length_cons, List.length_nil, show ((0 : Fin 256)).val = 0 from rfl,
    show ((60 : Fin 256)).val = 60 from rfl]
  rw [show ((((0:ℕ):ℝ) - 30) ^ 2 + ((((60:ℕ):ℝ) - 30) ^ 2 + 0)) = 1800 by norm_num]
  rw [show ((1800 : ℝ) / ((0:ℕ) + 1 + 1 : ℕ)) = 30 ^ 2 by norm_num]
  exact Real.sqrt_sq (by norm_num)

theorem mean_flatGray : mean flatGray = 120 := by
  unfold mean
  rw [show flatGray.data = List.replicate 240000 120 from rfl]
  rw [List.map_replicate, List.sum_replicate, List.length_replicate, nsmul_eq_mul]
  rw [show ((120 : Fin 256)).val = 120 from rfl]
  norm_num

theorem std_flatGray : std flatGray = 0 := by
  unfold std
  rw [mean_flatGray]
  rw [show flatGray.data = List.replicate 240000 120 from rfl]
  rw [List.map_replicate, List.sum_replicate, List.length_replicate, nsmul_eq_mul]
  rw [show ((120 : Fin 256)).val = 120 from rfl]
  rw [show ((240000:ℕ):ℝ) * (((120:ℕ):ℝ) - 120) ^ 2 / ((240000:ℕ):ℝ) = 0 by norm_num]
  exact Real.sqrt_zero

/-! ### The conforming sample generator -/

theorem constRNG_conforming : constRNG.Conforming := by
  constructor
  · intro s ws hws
    simpa [constRNG] using List.length_pos.mpr hws
  · intro s lo hi h
    constructor
    · show lo ≤ (lo + 99 * hi) / 100
      rw [le_div_iff₀ (by norm_num : (0:ℝ) < 100)]
      linarith
    · show (lo + 99 * hi) / 100 ≤ hi
      rw [div_le_iff₀ (by norm_num : (0:ℝ) < 100)]
      linarith

/-! ### Confidence bounds -/

/-- The multiplicative adjustment keeps a draw from `[0.75, 0.98]` inside
`[0.6, 1.078]`. -/
theorem adjust_bounds {std_val u : ℝ} (h1 : 0.75 ≤ u) (h2 : u ≤ 0.98) :
    0.6 ≤ adjustConfidence std_val u ∧ adjustConfidence std_val u ≤ 1.078 := by
  unfold adjustConfidence
  split_ifs <;> constructor <;> linarith

/-- Rounding to three decimals keeps a value inside `[0.6, 1.078]`. -/
theorem roundTo3_bounds {x : ℝ} (h1 : 0.6 ≤ x) (h2 : x ≤ 1.078) :
    0.6 ≤ roundTo 3 x ∧ roundTo 3 x ≤ 1.078 := by
  have e6 : roundTo 3 (0.6 : ℝ) = 0.6 := roundTo_eq_self 600 (by norm_num)
  have e1078 : roundTo 3 (1.078 : ℝ) = 1.078 := roundTo_eq_self 1078 (by norm_num)
  constructor
  · have h := roundTo_mono 3 h1
    rwa [e6] at h
  · have h := roundTo_mono 3 h2
    rwa [e1078] at h

/-- Any conforming generator makes every emitted confidence land in
`[0.6, 1.078]`. -/
theorem recOf_confidence_bounds {σ : Type} {rng : RNG σ} (hc : rng.Conforming)
    (seed : ℕ) (ws : List ℚ) (std_val : ℝ) (tooth : ToothStatic) :
    0.6 ≤ (recOf rng seed ws std_val tooth).confidence ∧
      (recOf rng seed ws std_val tooth).confidence ≤ 1.078 := by
  have h := hc.2 (rng.choiceIdx (rng.seed (seed + parseNat tooth.number)) ws).2
    0.75 0.98 (by norm_num)
  exact roundTo3_bounds (adjust_bounds h.1 h.2).1 (adjust_bounds h.1 h.2).2

/-! ### Entropy of constant images -/

/-- Dropping zero entries does not change a sum of naturals. -/
theorem sum_filter_pos (l : List ℕ) : (l.filter fun c => 0 < c).sum = l.sum := by
  induction l with
  | nil => rfl
  | cons a t ih =>
      by_cases h : 0 < a
      · simp [List.filter_cons, h, ih]
      · have ha : a = 0 := by omega
        simp [List.filter_cons, ha, ih]

/-- Dropping zero entries does not change a mapped sum when the function
vanishes at zero. -/
theorem map_sum_filter_pos (g : ℕ → ℝ) (hg : g 0 = 0) (l : List ℕ) :
    (((l.filter fun c => 0 < c).map g).sum) = (l.map g).sum := by
  induction l with
  | nil => rfl
  | cons a t ih =>
      by_cases h : 0 < a
      · simp [List.filter_cons, h, ih]
      · have ha : a = 0 := by omega
        simp [List.filter_cons, ha, ih, hg]

/-- Summing an indicator-like map over `List.range`. -/
theorem sum_range_single (n v₀ : ℕ) : ∀ k, v₀ < k →
    (((List.range k).map fun v => if v = v₀ then n else 0).sum) = n := by
  intro k
  induction k with
  | zero => omega
  | succ m ih =>
      intro hv
      rw [List.range_succ, List.map_append, List.sum_append]
      by_cases h : v₀ < m
      · rw [ih h]
        have hm : m ≠ v₀ := by omega
        simp [hm]
      · have hm : m = v₀ := by omega
        have hpre : (((List.range m).map fun v => if v = v₀ then n else 0).sum) = 0 := by
          apply List.sum_eq_zero
          intro x hx
          rw [List.mem_map] at hx
          obtain ⟨v, hvm, rfl⟩ := hx
          rw [List.mem_range] at hvm
          have : v ≠ v₀ := by omega
          simp [this]
        rw [hpre]
        simp [hm]

/-- Histogram of an image all of whose pixels equal `p₀`. -/
theorem hist_const {img : Image} (p₀ : Fin 256) (hall : ∀ p ∈ img.data, p = p₀) :
    hist img = (List.range 256).map fun v => if v = p₀.val then img.data.length else 0 := by
  unfold hist
  apply List.map_congr_left
  intro v _
  by_cases h : v = p₀.val
  · subst h
    rw [if_pos rfl]
    congr 1
    rw [List.filter_eq_self]
    intro a ha
    rw [hall a ha]
    simp
  · rw [if_neg h]
    rw [List.filter_eq_nil_iff.mpr, List.length_nil]
    intro a ha
    rw [hall a ha]
    simp
    omega

/-- An image all of whose pixels are equal has zero histogram entropy. -/
theorem entropy_of_all_eq {img : Image} (p₀ : Fin 256)
    (hall : ∀ p ∈ img.data, p = p₀) : calculate_entropy img = 0 := by
  have hh : hist img =
      (List.range 256).map fun v => if v = p₀.val then img.data.length else 0 :=
    hist_const p₀ hall
  have htot : ((hist img).filter fun c => 0 < c).sum = img.data.length := by
    rw [sum_filter_pos, hh, sum_range_single _ _ _ p₀.isLt]
  simp only [calculate_entropy, entropyOfHist]
  rw [htot]
  rw [map_sum_filter_pos _ (by simp)]
  rw [hh, List.map_map, neg_eq_zero]
  apply List.sum_eq_zero
  intro x hx
  rw [List.mem_map] at hx
  obtain ⟨v, _, rfl⟩ := hx
  by_cases h : v = p₀.val
  · subst h
    simp only [Function.comp_apply, if_true]
    rcases Nat.eq_zero_or_pos img.data.length with h0 | h0
    · simp [h0]
    · have hne : ((img.data.length : ℕ) : ℝ) ≠ 0 := Nat.cast_ne_zero.mpr (by omega)
      rw [div_self hne, Real.logb_one, mul_zero]
  · simp [Function.comp_apply, h]

/-- A list of nonnegative reals summing to zero is pointwise zero. -/
theorem list_sum_zero_of_nonneg {l : List ℝ} (h0 : ∀ x ∈ l, 0 ≤ x)
    (hs : l.sum = 0) : ∀ x ∈ l, x = 0 := by
  induction l with
  | nil => simp
  | cons a t ih =>
      rw [List.sum_cons] at hs
      have ha : 0 ≤ a := h0 a (by simp)
      have ht : 0 ≤ t.sum := List.sum_nonneg fun x hx => h0 x (by simp [hx])
      have ha0 : a = 0 := by linarith
      have hts : t.sum = 0 := by linarith
      intro x hx
      rcases List.mem_cons.mp hx with rfl | hx
      · exact ha0
      · exact ih (fun y hy => h0 y (by simp [hy])) hts x hx

/-- Zero standard deviation forces all pixels of an image to coincide. -/
theorem std_zero_all_eq {img : Image} (hstd : std img = 0) :
    ∀ p ∈ img.data, ∀ q ∈ img.data, p = q := by
  intro p hp q hq
  have hn : img.data.length ≠ 0 := by
    intro h0
    rw [List.length_eq_zero] at h0
    rw [h0] at hp
    simp at hp
  have hS0 : ((img.data.map fun r => ((r.val : ℝ) - mean img) ^ 2).sum) = 0 := by
    have hle : ((img.data.map fun r => ((r.val : ℝ) - mean img) ^ 2).sum) /
        img.data.length ≤ 0 := Real.sqrt_eq_zero'.mp hstd
    have hge : 0 ≤ ((img.data.map fun r => ((r.val : ℝ) - mean img) ^ 2).sum) /
        img.data.length := by
      apply div_nonneg
      · exact List.sum_nonneg fun x hx => by
          rw [List.mem_map] at hx
          obtain ⟨r, _, rfl⟩ := hx
          positivity
      · positivity
    have hq0 : ((img.data.map fun r => ((r.val : ℝ) - mean img) ^ 2).sum) /
        img.data.length = 0 := le_antisymm hle hge
    rcases div_eq_zero_iff.mp hq0 with h | h
    · exact h
    · exact absurd (Nat.cast_eq_zero.mp h) hn
  have hall : ∀ x ∈ img.data.map fun r => ((r.val : ℝ) - mean img) ^ 2, x = 0 :=
    list_sum_zero_of_nonneg
      (fun x hx => by
        rw [List.mem_map] at hx
        obtain ⟨r, _, rfl⟩ := hx
        positivity)
      hS0
  have key : ∀ r ∈ img.data, (r.val : ℝ) = mean img := by
    intro r hr
    have := hall (((r.val : ℝ) - mean img) ^ 2) (List.mem_map.mpr ⟨r, hr, rfl⟩)
    have h2 : ((r.val : ℝ) - mean img) = 0 := by
      exact pow_eq_zero_iff (by norm_num) |>.mp this
    linarith
  have : (p.val : ℝ) = (q.val : ℝ) := by rw [key p hp, key q hq]
  exact Fin.ext (Nat.cast_injective this)

/-- Zero standard deviation gives zero histogram entropy. -/
theorem entropy_zero_of_std_zero {img : Image} (hstd : std img = 0) :
    calculate_entropy img = 0 := by
  rcases h : img.data with _ | ⟨p₀, rest⟩
  · exact entropy_of_all_eq 0 (by intro p hp; rw [h] at hp; simp at hp)
  · refine entropy_of_all_eq p₀ fun p hp => std_zero_all_eq hstd p hp p₀ ?_
    rw [h]
    exact List.mem_cons_self _ _

/-! ### Further evaluation helpers -/

/-- Rounding zero gives zero. -/
theorem roundTo_zero (d : ℕ) : roundTo d (0 : ℝ) = 0 := by
  have h := roundTo_intVal d 0
  simpa using h

/-- Rounding one hundred gives one hundred. -/
theorem roundTo_hundred (d : ℕ) : roundTo d (100 : ℝ) = 100 := by
  have h := roundTo_intVal d 100
  simpa using h

/-- Rounding a capped value stays capped. -/
theorem roundTo_min_le_hundred (x : ℝ) : roundTo 1 (min 100 x) ≤ 100 := by
  have h := roundTo_mono 1 (min_le_left (100 : ℝ) x)
  rwa [roundTo_hundred] at h

/-- The generator's output list is never empty. -/
theorem detect_ne_nil {σ : Type} (rng : RNG σ) (s₀ : σ) (img : Image) :
    detect_teeth_based_on_image rng s₀ img ≠ [] := by
  intro h
  have hl := detect_length rng s₀ img
  rw [h] at hl
  simp at hl

set_option maxRecDepth 10000 in
/-- The two 1×2 samples have identical histograms. -/
theorem hist_grayA_eq_grayB : hist grayA = hist grayB := by decide

/-- Hence identical entropies. -/
theorem entropy_grayA_eq_grayB : calculate_entropy grayA = calculate_entropy grayB := by
  unfold calculate_entropy
  rw [hist_grayA_eq_grayB]

/-- Zero entropy forces the reported sharpness to zero. -/
theorem sharpness_of_entropy_zero {img : Image} (h : calculate_entropy img = 0) :
    (analyze_image_quality img).sharpness = 0 := by
  simp only [analyze_image_quality]
  rw [h]
  rw [show (0 : ℝ) / 8 * 100 = 0 by norm_num]
  rw [min_eq_right (by norm_num : (0:ℝ) ≤ 100)]
  exact roundTo_zero 1

/-- Zero standard deviation forces the reported clarity to zero. -/
theorem clarity_of_std_zero {img : Image} (h : std img = 0) :
    (analyze_image_quality img).clarity = 0 := by
  simp only [analyze_image_quality]
  rw [h]
  rw [show (0 : ℝ) / 128 * 100 = 0 by norm_num]
  rw [min_eq_right (by norm_num : (0:ℝ) ≤ 100)]
  exact roundTo_zero 1

theorem entropy_gray1 : calculate_entropy gray1 = 0 :=
  entropy_zero_of_std_zero std_gray1

theorem clarity_gray1 : (analyze_image_quality gray1).clarity = 0 :=
  clarity_of_std_zero std_gray1

theorem sharpness_gray1 : (analyze_image_quality gray1).sharpness = 0 :=
  sharpness_of_entropy_zero entropy_gray1

/-- The MD5 digest always has 16 bytes. -/
theorem md5Digest_length (msg : List ℕ) : (md5Digest msg).length = 16 := by
  unfold md5Digest leBytes
  simp

/-- The hex digest always has 32 characters. -/
theorem md5Hex_data_length (msg : List ℕ) : (md5Hex msg).data.length = 32 := by
  show (((md5Digest msg).map byteHex).flatten).length = 32
  rw [List.length_flatten, List.map_map]
  have hb : (List.length ∘ byteHex) = fun _ : ℕ => 2 := rfl
  rw [hb, List.map_const', List.sum_replicate, md5Digest_length]
  norm_num

/-- Fingerprints always have 8 characters. -/
theorem fingerprintOf_length (r c m s : ℕ) : (fingerprintOf r c m s).length = 8 := by
  unfold fingerprintOf strTake
  show (List.take 8 (md5Hex _).data).length = 8
  rw [List.length_take, md5Hex_data_length]
  norm_num

/-- The fingerprint of the flat-gray example, fully evaluated. -/
theorem fingerprint_flatGray_eq_fingerprintOf :
    generate_image_fingerprint flatGray = fingerprintOf 400 600 12000 0 := by
  unfold generate_image_fingerprint
  rw [mean_flatGray, std_flatGray]
  rw [show (100 * (120:ℝ)) = ((12000:ℤ):ℝ) by norm_num]
  rw [show (100 * (0:ℝ)) = ((0:ℤ):ℝ) by norm_num]
  rw [roundHE_intCast, roundHE_intCast]
  rfl

set_option maxRecDepth 10000 in
/-- The concrete MD5 evaluation of the worked example. -/
theorem fingerprintOf_flatGray_value : fingerprintOf 400 600 12000 0 = "56598eb0" := by
  decide

set_option maxRecDepth 10000 in
/-- The example's payload string is exactly `"(400, 600)120.00" + "0.00"`. -/
theorem fingerprintOf_flatGray_payload :
    fingerprintOf 400 600 12000 0 =
      strTake (md5Hex (strBytes ("(400, 600)120.00" ++ "0.00"))) 8 := by
  decide

/-- Confidence of the first record the generator emits on `grayA` (stddev 100)
under the sample conforming generator: the 99th-percentile draw 0.9777 is
scaled by 1.1 and rounded to 1.075 — strictly above 1. -/
theorem cex_head_confidence :
    ((detect_teeth_based_on_image constRNG () grayA).head
      (detect_ne_nil constRNG () grayA)).confidence = 1075 / 1000 := by
  have h : (detect_teeth_based_on_image constRNG () grayA).head
      (detect_ne_nil constRNG () grayA) =
      recOf constRNG (baseSeed grayA) (conditionWeights (std grayA)) (std grayA)
        ⟨"18", "Third Molar", "Wisdom Tooth"⟩ := rfl
  rw [h]
  simp only [recOf, constRNG]
  rw [std_grayA]
  unfold adjustConfidence
  rw [if_neg (by norm_num : ¬ (100:ℝ) < 25), if_pos (by norm_num : (100:ℝ) > 80)]
  unfold roundTo
  have h1075 : roundHE ((0.75 + 99 * 0.98) / 100 * 1.1 * 10 ^ 3 : ℝ) = (1075 : ℤ) :=
    roundHE_eq_low (by norm_num) (by norm_num)
  rw [h1075]
  norm_num

/-! ## Claim theorems -/

/-- C1: for any fixed image sample and position list, two invocations of
`detect_teeth_based_on_image` followed by
`calculate_forensic_metrics_based_on_image` produce identical tooth-record
sequences and identical aggregate metrics; the result depends only on the
image's shape, mean and standard deviation (via the fingerprint) and its
statistics (standard deviation and histogram entropy), not on the ambient
generator state `s₀`/`s₁`. -/
theorem c1_determinism {σ : Type} (rng : RNG σ) (s₀ s₁ : σ)
    (img₁ img₂ orig₁ orig₂ enh₁ enh₂ : Image) (teeth : List ToothRecord)
    (hr : img₁.rows = img₂.rows) (hc : img₁.cols = img₂.cols)
    (hm : mean img₁ = mean img₂) (hs : std img₁ = std img₂)
    (hso : std orig₁ = std orig₂)
    (heo : calculate_entropy orig₁ = calculate_entropy orig₂)
    (hse : std enh₁ = std enh₂)
    (hee : calculate_entropy enh₁ = calculate_entropy enh₂) :
    detect_teeth_based_on_image rng s₀ img₁ = detect_teeth_based_on_image rng s₁ img₂ ∧
    calculate_forensic_metrics_based_on_image orig₁ enh₁ teeth =
      calculate_forensic_metrics_based_on_image orig₂ enh₂ teeth := by
  constructor
  · rw [detect_eq_map, detect_eq_map]
    unfold baseSeed generate_image_fingerprint
    rw [hr, hc, hm, hs]
  · simp only [calculate_forensic_metrics_based_on_image, analyze_image_quality]
    rw [hso, heo, hse, hee]

/-- Witness for C1 at two distinct images with equal shape and statistics. -/
theorem c1_determinism_witness :
    detect_teeth_based_on_image constRNG () grayA =
      detect_teeth_based_on_image constRNG () grayB ∧
    calculate_forensic_metrics_based_on_image grayA grayA cexTeeth =
      calculate_forensic_metrics_based_on_image grayB grayB cexTeeth :=
  c1_determinism constRNG () () grayA grayB grayA grayB grayA grayB cexTeeth
    rfl rfl (by rw [mean_grayA, mean_grayB]) (by rw [std_grayA, std_grayB])
    (by rw [std_grayA, std_grayB]) entropy_grayA_eq_grayB
    (by rw [std_grayA, std_grayB]) entropy_grayA_eq_grayB

/-- C2 counterexample: a conforming generator and an image (stddev 100) on
which an emitted record carries confidence 1.075 > 1, refuting membership of
the confidence in [0, 1]. -/
theorem c2_confidence_exceeds_one_cex :
    RNG.Conforming constRNG ∧
    (detect_teeth_based_on_image constRNG () grayA).head
        (detect_ne_nil constRNG () grayA) ∈
      detect_teeth_based_on_image constRNG () grayA ∧
    1 < ((detect_teeth_based_on_image constRNG () grayA).head
        (detect_ne_nil constRNG () grayA)).confidence := by
  refine ⟨constRNG_conforming, List.head_mem _, ?_⟩
  rw [cex_head_confidence]
  norm_num

/-- C2 (amended): for every conforming generator and image sample, the
confidence of every emitted tooth record lies in [0, 1.078] (the source never
re-clamps after the multiplicative adjustment, so 1 can be exceeded by up to
0.078). -/
theorem c2_confidence_range_amended {σ : Type} {rng : RNG σ}
    (hc : rng.Conforming) (s₀ : σ) (img : Image) (t : ToothRecord)
    (ht : t ∈ detect_teeth_based_on_image rng s₀ img) :
    0 ≤ t.confidence ∧ t.confidence ≤ 1.078 := by
  obtain ⟨tooth, rfl⟩ := mem_detect ht
  have h := recOf_confidence_bounds hc (baseSeed img) (conditionWeights (std img))
    (std img) tooth
  exact ⟨le_trans (by norm_num) h.1, h.2⟩

/-- Witness for the amended C2. -/
theorem c2_confidence_range_amended_witness :
    0 ≤ ((detect_teeth_based_on_image constRNG () gray1).head
        (detect_ne_nil constRNG () gray1)).confidence ∧
    ((detect_teeth_based_on_image constRNG () gray1).head
        (detect_ne_nil constRNG () gray1)).confidence ≤ 1.078 :=
  c2_confidence_range_amended constRNG_conforming () gray1 _ (List.head_mem _)

/-- C3: the generator derives its base seed as the fingerprint's hex digits
read as an integer reduced mod 10000; for each of the 8 positions it forms the
per-tooth seed `base + int(position)`, reseeds the generator with it, draws
one condition index from the selected probability table and then one uniform
value from [0.75, 0.98], and emits the record built from those draws. -/
theorem c3_seed_derivation {σ : Type} (rng : RNG σ) (s₀ : σ) (img : Image) :
    detect_teeth_based_on_image rng s₀ img =
      (all_teeth.take 8).map fun tooth =>
        let base_seed := hexToNat (generate_image_fingerprint img) % 10000
        let tooth_seed := base_seed + parseNat tooth.number
        let s1 := rng.seed tooth_seed
        let cd := rng.choiceIdx s1 (conditionWeights (std img))
        let u := rng.uniform cd.2 0.75 0.98
        { number := tooth.number, name := tooth.name, type := tooth.type,
          condition := conditions.getD cd.1 "",
          confidence := roundTo 3 (adjustConfidence (std img) u.1) } := by
  rw [detect_eq_map]
  rfl

/-- C4: the probability table is selected solely by the standard deviation:
strictly below 30 the low-contrast table is used, at 30 or above the default
table, with exactly the claimed entries over the seven conditions. -/
theorem c4_table_switch (img : Image) :
    (std img < 30 →
      conditionWeights (std img) = [0.4, 0.2, 0.1, 0.1, 0.1, 0.08, 0.02]) ∧
    (30 ≤ std img →
      conditionWeights (std img) = [0.6, 0.15, 0.08, 0.06, 0.05, 0.04, 0.02]) ∧
    conditions = ["Healthy", "Filled", "Crowned", "Root Canal", "Impacted",
      "Missing", "Carious"] := by
  refine ⟨?_, ?_, rfl⟩
  · intro h
    unfold conditionWeights
    rw [if_pos h]
    rfl
  · intro h
    unfold conditionWeights
    rw [if_neg (not_lt.mpr h)]
    rfl

/-- Witness for C4 on both sides of the threshold: stddev 0 (< 30) and
stddev exactly 30. -/
theorem c4_table_switch_witness :
    conditionWeights (std gray1) = [0.4, 0.2, 0.1, 0.1, 0.1, 0.08, 0.02] ∧
    conditionWeights (std img30) = [0.6, 0.15, 0.08, 0.06, 0.05, 0.04, 0.02] :=
  ⟨(c4_table_switch gray1).1 (by rw [std_gray1]; norm_num),
   (c4_table_switch img30).2.1 (by rw [std_img30])⟩

/-- C5: images with equal shape and equal mean/stddev rounded to 2 decimals
get the same 8-character fingerprint, and the flat-gray 400×600 example's
fingerprint is exactly the first 8 hex characters of
MD5("(400, 600)120.00" + "0.00"), namely "56598eb0". -/
theorem c5_fingerprint_stability (img₁ img₂ : Image)
    (hr : img₁.rows = img₂.rows) (hc : img₁.cols = img₂.cols)
    (hm : roundHE (100 * mean img₁) = roundHE (100 * mean img₂))
    (hs : roundHE (100 * std img₁) = roundHE (100 * std img₂)) :
    generate_image_fingerprint img₁ = generate_image_fingerprint img₂ ∧
    (generate_image_fingerprint img₁).length = 8 ∧
    generate_image_fingerprint flatGray =
      strTake (md5Hex (strBytes ("(400, 600)120.00" ++ "0.00"))) 8 ∧
    generate_image_fingerprint flatGray = "56598eb0" := by
  refine ⟨?_, fingerprintOf_length _ _ _ _, ?_, ?_⟩
  · unfold generate_image_fingerprint
    rw [hr, hc, hm, hs]
  · rw [fingerprint_flatGray_eq_fingerprintOf, fingerprintOf_flatGray_payload]
  · rw [fingerprint_flatGray_eq_fingerprintOf, fingerprintOf_flatGray_value]

/-- Witness for C5 at two distinct images with equal statistics. -/
theorem c5_fingerprint_stability_witness :
    generate_image_fingerprint grayA = generate_image_fingerprint grayB ∧
    (generate_image_fingerprint grayA).length = 8 ∧
    generate_image_fingerprint flatGray =
      strTake (md5Hex (strBytes ("(400, 600)120.00" ++ "0.00"))) 8 ∧
    generate_image_fingerprint flatGray = "56598eb0" :=
  c5_fingerprint_stability grayA grayB rfl rfl
    (by rw [mean_grayA, mean_grayB]) (by rw [std_grayA, std_grayB])

/-- C6: reordering the position list changes no individual position's record:
with a fresh per-tooth seed of `base + int(position)`, the record emitted at a
position is the same function of that position in any permutation of the
list. -/
theorem c6_order_independence {σ : Type} (rng : RNG σ) (s₀ s₁ : σ) (img : Image)
    (l₁ l₂ : List ToothStatic) (hperm : l₁.Perm l₂)
    (i j : ℕ) (hi : i < l₁.length) (hj : j < l₂.length)
    (hpos : l₁.get ⟨i, hi⟩ = l₂.get ⟨j, hj⟩) :
    (detectTeethOn rng s₀ img l₁)[i]? = (detectTeethOn rng s₁ img l₂)[j]? := by
  rw [detectTeethOn_eq_map, detectTeethOn_eq_map]
  rw [List.getElem?_map, List.getElem?_map]
  rw [List.getElem?_eq_getElem hi, List.getElem?_eq_getElem hj]
  simp only [Option.map_some']
  rw [show l₁[i] = l₁.get ⟨i, hi⟩ from rfl, show l₂[j] = l₂.get ⟨j, hj⟩ from rfl,
    hpos]

/-- Witness for C6: swapping two positions leaves each position's record
unchanged. -/
theorem c6_order_independence_witness :
    (detectTeethOn constRNG () gray1
      [⟨"18", "Third Molar", "Wisdom Tooth"⟩, ⟨"17", "Second Molar", "Molar"⟩])[0]? =
    (detectTeethOn constRNG () gray1
      [⟨"17", "Second Molar", "Molar"⟩, ⟨"18", "Third Molar", "Wisdom Tooth"⟩])[1]? :=
  c6_order_independence constRNG () () gray1 _ _
    (List.Perm.swap ⟨"17", "Second Molar", "Molar"⟩
      ⟨"18", "Third Molar", "Wisdom Tooth"⟩ [])
    0 1 (by norm_num) (by norm_num) rfl

/-- C7 counterexample: on a constant image and a record list with one Healthy
and seven Carious teeth, the function returns forensic utility 3.8 (rounded to
one decimal), while the claim's formula yields 3.75 — the returned value is
not equal to the claimed `min(100, ...)` expression. -/
theorem c7_unrounded_formula_cex :
    (calculate_forensic_metrics_based_on_image gray1 gray1 cexTeeth).forensic_utility
      = 19 / 5 ∧
    specForensicUtility gray1 cexTeeth = 15 / 4 ∧
    (calculate_forensic_metrics_based_on_image gray1 gray1 cexTeeth).forensic_utility ≠
      specForensicUtility gray1 cexTeeth := by
  have hspec : specForensicUtility gray1 cexTeeth = 15 / 4 := by
    unfold specForensicUtility
    rw [clarity_gray1, sharpness_gray1]
    rw [show healthyCount cexTeeth = 1 from by decide,
      show treatedCount cexTeeth = 0 from by decide,
      show cexTeeth.length = 8 from by decide]
    rw [min_eq_right (by norm_num)]
    norm_num
  have hcode : (calculate_forensic_metrics_based_on_image gray1 gray1
      cexTeeth).forensic_utility = 19 / 5 := by
    simp only [calculate_forensic_metrics_based_on_image]
    rw [clarity_gray1, sharpness_gray1]
    rw [show healthyCount cexTeeth = 1 from by decide,
      show treatedCount cexTeeth = 0 from by decide,
      show cexTeeth.length = 8 from by decide]
    rw [show min (100:ℝ) ((0:ℝ) * 0.4 + (0:ℝ) * 0.3 +
      (((1:ℕ):ℝ) / ((8:ℕ):ℝ) * 30 + ((0:ℕ):ℝ) / ((8:ℕ):ℝ) * 40)) = 15 / 4 by
        rw [min_eq_right (by norm_num)]; norm_num]
    unfold roundTo
    rw [show (15:ℝ) / 4 * 10 ^ 1 = ((37:ℤ):ℝ) + 1 / 2 by norm_num]
    rw [roundHE_tie_odd rfl (by decide)]
    norm_num
  exact ⟨hcode, hspec, by rw [hcode, hspec]; norm_num⟩

/-- C7 (amended): the function returns exactly the claimed formulas rounded to
one decimal place: forensic utility is `round(min(100, 0.4·clarity +
0.3·sharpness + 30·healthy/total + 40·treated/total), 1)` and identification
confidence is `round(min(100, 50 + 8·distinctive + 0.4·forensic_utility), 1)`
with the unrounded forensic utility inside. -/
theorem c7_metrics_rounded (original_img enhanced_img : Image)
    (teeth_data : List ToothRecord) (hne : teeth_data ≠ []) :
    (calculate_forensic_metrics_based_on_image original_img enhanced_img
      teeth_data).forensic_utility
        = roundTo 1 (specForensicUtility enhanced_img teeth_data) ∧
    (calculate_forensic_metrics_based_on_image original_img enhanced_img
      teeth_data).identification_confidence
        = roundTo 1 (specIdentificationConfidence enhanced_img teeth_data) := by
  simp only [calculate_forensic_metrics_based_on_image, specForensicUtility,
    specIdentificationConfidence]
  constructor
  · congr 1
    congr 1
    ring
  · congr 1
    congr 1
    push_cast
    ring_nf

/-- Witness for the amended C7. -/
theorem c7_metrics_rounded_witness :
    (calculate_forensic_metrics_based_on_image gray1 gray1
      cexTeeth).forensic_utility
        = roundTo 1 (specForensicUtility gray1 cexTeeth) ∧
    (calculate_forensic_metrics_based_on_image gray1 gray1
      cexTeeth).identification_confidence
        = roundTo 1 (specIdentificationConfidence gray1 cexTeeth) :=
  c7_metrics_rounded gray1 gray1 cexTeeth (by simp [cexTeeth])

/-- C8: every returned clarity, sharpness, forensic-utility and
identification-confidence value is at most 100, for arbitrary inputs; and a
zero-variance image has entropy 0 and reported sharpness 0. -/
theorem c8_metric_bounds (original_img enhanced_img : Image)
    (teeth_data : List ToothRecord) :
    (calculate_forensic_metrics_based_on_image original_img enhanced_img
      teeth_data).image_clarity ≤ 100 ∧
    (calculate_forensic_metrics_based_on_image original_img enhanced_img
      teeth_data).sharpness_quality ≤ 100 ∧
    (calculate_forensic_metrics_based_on_image original_img enhanced_img
      teeth_data).forensic_utility ≤ 100 ∧
    (calculate_forensic_metrics_based_on_image original_img enhanced_img
      teeth_data).identification_confidence ≤ 100 ∧
    (std enhanced_img = 0 → calculate_entropy enhanced_img = 0 ∧
      (analyze_image_quality enhanced_img).sharpness = 0) := by
  refine ⟨?_, ?_, ?_, ?_, fun h =>
    ⟨entropy_zero_of_std_zero h,
     sharpness_of_entropy_zero (entropy_zero_of_std_zero h)⟩⟩
  · exact roundTo_min_le_hundred _
  · exact roundTo_min_le_hundred _
  · exact roundTo_min_le_hundred _
  · exact roundTo_min_le_hundred _

/-- Witness for C8 at a degenerate constant-intensity image. -/
theorem c8_metric_bounds_witness :
    (calculate_forensic_metrics_based_on_image gray1 gray1
      cexTeeth).image_clarity ≤ 100 ∧
    (calculate_forensic_metrics_based_on_image gray1 gray1
      cexTeeth).sharpness_quality ≤ 100 ∧
    (calculate_forensic_metrics_based_on_image gray1 gray1
      cexTeeth).forensic_utility ≤ 100 ∧
    (calculate_forensic_metrics_based_on_image gray1 gray1
      cexTeeth).identification_confidence ≤ 100 ∧
    (calculate_entropy gray1 = 0 ∧ (analyze_image_quality gray1).sharpness = 0) := by
  have h := c8_metric_bounds gray1 gray1 cexTeeth
  exact ⟨h.1, h.2.1, h.2.2.1, h.2.2.2.1, h.2.2.2.2 std_gray1⟩

/-- C9: the generator returns exactly 8 records, at positions 18..11 in that
fixed order — the first half of the 16-entry template — so the divisor
`len(teeth_data)` in the metrics function is the nonzero constant 8. -/
theorem c9_eight_records {σ : Type} (rng : RNG σ) (s₀ : σ) (img : Image) :
    (detect_teeth_based_on_image rng s₀ img).length = 8 ∧
    (detect_teeth_based_on_image rng s₀ img).map ToothRecord.number =
      ["18", "17", "16", "15", "14", "13", "12", "11"] ∧
    all_teeth.length = 16 ∧
    (((detect_teeth_based_on_image rng s₀ img).length : ℕ) : ℝ) ≠ 0 := by
  refine ⟨detect_length rng s₀ img, detect_numbers rng s₀ img, rfl, ?_⟩
  rw [detect_length]
  norm_num

/-- C10: every emitted post-adjustment confidence lies in [0.6, 1.078]: the
uniform draw is in [0.75, 0.98] and the only multipliers are 0.8, 1.1 or
none. -/
theorem c10_confidence_interval {σ : Type} {rng : RNG σ} (hc : rng.Conforming)
    (s₀ : σ) (img : Image) (t : ToothRecord)
    (ht : t ∈ detect_teeth_based_on_image rng s₀ img) :
    0.6 ≤ t.confidence ∧ t.confidence ≤ 1.078 := by
  obtain ⟨tooth, rfl⟩ := mem_detect ht
  exact recOf_confidence_bounds hc (baseSeed img) (conditionWeights (std img))
    (std img) tooth

/-- Witness for C10. -/
theorem c10_confidence_interval_witness :
    0.6 ≤ ((detect_teeth_based_on_image constRNG () grayA).head
        (detect_ne_nil constRNG () grayA)).confidence ∧
    ((detect_teeth_based_on_image constRNG () grayA).head
        (detect_ne_nil constRNG () grayA)).confidence ≤ 1.078 :=
  c10_confidence_interval constRNG_conforming () grayA _ (List.head_mem _)

end ForensicDental
